import Mathlib

set_option maxRecDepth 16384

/-!
Verification development for the broadband comparison URL generator
(`url_generator.py`).  The Python source is shallowly embedded: pure string
manipulation is modelled on `String` / `List Char`, the pydantic parameter
model becomes a Lean structure, validation failures become `Except` values,
and the URL generator becomes a total Lean function.  Character-level string
primitives (`str.strip`, `str.upper`, `urllib.parse.quote`, the postcode
regex) are embedded over their ASCII fragment, which covers every value the
program's own domains can produce.
-/

/-! ## Character-level helpers (embedding of Python string primitives) -/

/-- ASCII whitespace as recognised by Python `str.strip` and the regex
class `\s` (space, tab, newline, carriage return, vertical tab, form feed).
Unicode whitespace is outside the embedded fragment. -/
def pyIsSpace (c : Char) : Bool :=
  decide (c = ' ') || decide (c = '\t') || decide (c = '\n') ||
  decide (c = '\r') || decide (c.toNat = 11) || decide (c.toNat = 12)

/-- Embedding of Python `str.strip()`: drop whitespace from both ends. -/
def pyStrip (l : List Char) : List Char :=
  ((l.dropWhile pyIsSpace).reverse.dropWhile pyIsSpace).reverse

/-- Embedding of Python `str.upper()` on the ASCII fragment: lowercase
letters are shifted down by 32, everything else is unchanged. -/
def pyUpperChar (c : Char) : Char :=
  if 97 ≤ c.toNat ∧ c.toNat ≤ 122 then Char.ofNat (c.toNat - 32) else c

/-- Embedding of Python `str.strip()` at `String` type. -/
def pyStripStr (s : String) : String := String.mk (pyStrip s.data)

/-- The regex character class `[A-Z]`. -/
def isUpperAZ (c : Char) : Bool := decide (65 ≤ c.toNat) && decide (c.toNat ≤ 90)

/-- The regex character class `\d` (ASCII digits). -/
def isDigit09 (c : Char) : Bool := decide (48 ≤ c.toNat) && decide (c.toNat ≤ 57)

/-! ## Embedding of the postcode regex

`UK_POSTCODE_REGEX = r"^[A-Z]{1,2}\d[A-Z0-9]?\s*\d[A-Z]{2}$"`, matched with
`re.match` against a string whose spaces were removed.  Greedy matching with
backtracking over `{1,2}` and `?` is expressed as a boolean disjunction of
the alternatives; `\s*` followed by `\d` is equivalent to dropping a maximal
whitespace run because `\d` never matches whitespace. -/

/-- Matches `\s*\d[A-Z]{2}$`. -/
def matchInward (l : List Char) : Bool :=
  match l.dropWhile pyIsSpace with
  | [d, a, b] => isDigit09 d && isUpperAZ a && isUpperAZ b
  | _ => false

/-- Matches `[A-Z0-9]?\s*\d[A-Z]{2}$` (the optional character may be taken
or skipped). -/
def matchOptAlnum (l : List Char) : Bool :=
  matchInward l ||
    (match l with
     | c :: rest => (isUpperAZ c || isDigit09 c) && matchInward rest
     | [] => false)

/-- Matches `\d[A-Z0-9]?\s*\d[A-Z]{2}$`. -/
def matchDigitPart (l : List Char) : Bool :=
  match l with
  | c :: rest => isDigit09 c && matchOptAlnum rest
  | [] => false

/-- Full match of `^[A-Z]{1,2}\d[A-Z0-9]?\s*\d[A-Z]{2}$` (one or two
leading letters). -/
def ukPostcodeMatch (l : List Char) : Bool :=
  match l with
  | a :: rest =>
      isUpperAZ a &&
        (matchDigitPart rest ||
          (match rest with
           | b :: rest2 => isUpperAZ b && matchDigitPart rest2
           | [] => false))
  | [] => false

/-! ## Enumerations (the `str`-valued `Enum` classes of the source) -/

inductive Speed where
  | mb10 | mb30 | mb55 | mb100
deriving DecidableEq, Repr

def Speed.value : Speed → String
  | .mb10 => "10Mb"
  | .mb30 => "30Mb"
  | .mb55 => "55Mb"
  | .mb100 => "100Mb"

inductive ContractLength where
  | m12 | m18 | m24
deriving DecidableEq, Repr

def ContractLength.value : ContractLength → String
  | .m12 => "12 months"
  | .m18 => "18 months"
  | .m24 => "24 months"

inductive PhoneCalls where
  | cheapest | showAll | eveningWeekend | anytime | noInclusive | noLine
deriving DecidableEq, Repr

def PhoneCalls.value : PhoneCalls → String
  | .cheapest => "Cheapest"
  | .showAll => "Show me everything"
  | .eveningWeekend => "Evening and Weekend"
  | .anytime => "Anytime"
  | .noInclusive => "No inclusive"
  | .noLine => "No phone line"

inductive ProductType where
  | broadband | broadbandPhone | broadbandPhoneTv
deriving DecidableEq, Repr

def ProductType.value : ProductType → String
  | .broadband => "broadband"
  | .broadbandPhone => "broadband,phone"
  | .broadbandPhoneTv => "broadband,phone,tv"

inductive SortBy where
  | recommended | firstYearCost | avgMonthlyCost | totalContractCost
  | setupCosts | contractLength | speed | usage
deriving DecidableEq, Repr

def SortBy.value : SortBy → String
  | .recommended => "Recommended"
  | .firstYearCost => "First Year Cost"
  | .avgMonthlyCost => "Avg. Monthly Cost"
  | .totalContractCost => "Total Contract Cost"
  | .setupCosts => "Setup Costs"
  | .contractLength => "Contract Length"
  | .speed => "Speed"
  | .usage => "Usage"

/-- `VALID_SPEEDS` constant of the source. -/
def VALID_SPEEDS : List String := ["10Mb", "30Mb", "55Mb", "100Mb"]

/-- `VALID_CONTRACT_LENGTHS` constant of the source. -/
def VALID_CONTRACT_LENGTHS : List String := ["12 months", "18 months", "24 months"]

/-! ## The parameter model (`BroadbandParams`) -/

/-- Embedding of the pydantic model `BroadbandParams`.  Field defaults
mirror the source: the enum-valued and provider fields default to `None`,
the UI-only fields default to `""` / `"Broadband"` / `"alldeals"`. -/
structure BroadbandParams where
  postcode : String
  speedInMb : Option Speed := none
  contractLength : Option ContractLength := none
  phoneCalls : Option PhoneCalls := none
  productType : Option ProductType := none
  providers : Option (List String) := none
  currentProvider : Option String := none
  newLine : Option Bool := none
  sortBy : Option SortBy := none
  addressId : Option String := some ""
  matryoshkaSpeed : String := "Broadband"
  openProduct : Option String := some ""
  tab : String := "alldeals"
  tvChannels : Option String := some ""
deriving DecidableEq, Repr

namespace BroadbandParams

/-- Embedding of the `normalize_postcode_input` validator: reject empty or
whitespace-only input, strip and uppercase, and insert a single space before
the final three characters when the string is longer than three characters
and has no space. -/
def normalize_postcode_input (v : String) : Except String String :=
  let s := (pyStrip v.data).map pyUpperChar
  if s = [] then .error "postcode must be a non-empty string"
  else if 3 < s.length ∧ ' ' ∉ s then
    .ok (String.mk (s.take (s.length - 3) ++ ' ' :: s.drop (s.length - 3)))
  else .ok (String.mk s)

/-- Embedding of the `validate_postcode_format` validator body: match the
postcode regex against the value with all `' '` characters removed. -/
def validate_postcode_format (v : String) : Bool :=
  ukPostcodeMatch (v.data.filter fun c => decide (c ≠ ' '))

/-- The two chained postcode validators: normalisation followed by the
format check. -/
def validate_postcode (v : String) : Except String String :=
  match normalize_postcode_input v with
  | .error e => .error e
  | .ok n =>
      if validate_postcode_format n then .ok n
      else .error ("Invalid UK postcode format: " ++ n)

end BroadbandParams

/-- Raw (pre-coercion) provider input: `None`, a comma separated string, or
a list of strings, as accepted by the `coerce_providers` validator. -/
inductive RawProviders where
  | noneVal
  | str (s : String)
  | list (l : List String)
deriving DecidableEq, Repr

/-- Embedding of Python `str.split(",")` (single-character separator,
empty pieces kept, the empty string yielding one empty piece). -/
def splitOnComma : List Char → List (List Char)
  | [] => [[]]
  | c :: rest =>
      match splitOnComma rest with
      | [] => [[]]
      | piece :: pieces => if c = ',' then [] :: piece :: pieces else (c :: piece) :: pieces

/-- `str.split(",")` at `String` type. -/
def pySplitComma (s : String) : List String := (splitOnComma s.data).map String.mk

/-- Embedding of the `coerce_providers` validator.  A list keeps every
element whose stripped form is non-empty (stripped); a string is split on
commas, the pieces stripped, empty pieces dropped, and an empty result
collapses to `none` (`parts or None`).  Note the list branch returns the
filtered list directly, with no empty-to-`none` collapse. -/
def coerce_providers : RawProviders → Option (List String)
  | .noneVal => none
  | .list l => some ((l.map pyStripStr).filter fun s => decide (s ≠ ""))
  | .str s =>
      let parts := ((pySplitComma s).map pyStripStr).filter fun t => decide (t ≠ "")
      if parts = [] then none else some parts

/-- Embedding of `postcode.replace(" ", "+")` (single-character pattern, so
character-wise replacement is exact). -/
def postcode_token (pc : String) : String :=
  String.mk (pc.data.map fun c => if c = ' ' then '+' else c)

/-- Embedding of the `postcode_for_url` helper. -/
def BroadbandParams.postcode_for_url (p : BroadbandParams) : String :=
  postcode_token p.postcode

/-- Embedding of `get_missing_parameters`: the unset optional fields, in
the fixed declared order. -/
def BroadbandParams.get_missing_parameters (p : BroadbandParams) : List String :=
  (if p.speedInMb = none then ["speedInMb"] else []) ++
  (if p.contractLength = none then ["contractLength"] else []) ++
  (if p.phoneCalls = none then ["phoneCalls"] else []) ++
  (if p.productType = none then ["productType"] else []) ++
  (if p.sortBy = none then ["sortBy"] else [])

/-! ## Result model and percent-encoding -/

/-- A dumped field value (string, boolean or list of strings), standing for
the heterogeneous values of `model_dump`.  Enum members are represented by
their literal `str` value. -/
inductive PVal where
  | s (v : String)
  | b (v : Bool)
  | l (v : List String)
deriving DecidableEq, Repr

/-- Embedding of `URLGenerationResult`.  `parameters_used` is an ordered
association list, mirroring the insertion-ordered dict. -/
structure URLGenerationResult where
  success : Bool
  message : String
  url : Option String := none
  parameters_used : List (String × PVal) := []
  missing_parameters : List String := []
  suggestions : List String := []
deriving DecidableEq, Repr

/-- Uppercase hexadecimal digit, as produced by `urllib.parse.quote`. -/
def hexDigit (n : Nat) : Char :=
  if n < 10 then Char.ofNat (48 + n) else Char.ofNat (55 + n)

/-- UTF-8 encoding of a code point, as a list of byte values. -/
def utf8Bytes (n : Nat) : List Nat :=
  if n < 128 then [n]
  else if n < 2048 then [192 + n / 64, 128 + n % 64]
  else if n < 65536 then [224 + n / 4096, 128 + (n / 64) % 64, 128 + n % 64]
  else [240 + n / 262144, 128 + (n / 4096) % 64, 128 + (n / 64) % 64, 128 + n % 64]

/-- Characters `urllib.parse.quote` leaves unencoded with the default
`safe="/"`: ASCII letters, digits, `_.-~` and `/`. -/
def quoteSafe (c : Char) : Bool :=
  isUpperAZ c || isDigit09 c || (decide (97 ≤ c.toNat) && decide (c.toNat ≤ 122)) ||
  decide (c = '_') || decide (c = '.') || decide (c = '-') || decide (c = '~') ||
  decide (c = '/')

/-- Percent-encoding of one character (UTF-8 bytes, uppercase hex). -/
def quoteChar (c : Char) : List Char :=
  if quoteSafe c then [c]
  else (utf8Bytes c.toNat).flatMap fun b => ['%', hexDigit (b / 16), hexDigit (b % 16)]

/-- Embedding of `urllib.parse.quote` with the default `safe="/"`. -/
def pyQuote (s : String) : String := String.mk (s.data.flatMap quoteChar)

/-! ## The URL generator -/

/-- The ordered fragment-parameter mapping built by `generate`, before
empty values are dropped.  Each entry mirrors one line of the
`fragment_params` dict literal, including the Python truthiness of the
`or` / conditional expressions. -/
def fragmentParamsAll (p : BroadbandParams) : List (String × String) :=
  [("addressId", p.addressId.getD ""),
   ("contractLength", match p.contractLength with | some v => v.value | none => ""),
   ("currentProvider", p.currentProvider.getD ""),
   ("matryoshkaSpeed", if p.matryoshkaSpeed = "" then "Broadband" else p.matryoshkaSpeed),
   ("newLine", if p.newLine.getD false then "NewLine" else ""),
   ("openProduct", p.openProduct.getD ""),
   ("phoneCalls", match p.phoneCalls with | some v => v.value | none => ""),
   ("productType", match p.productType with | some v => v.value | none => "broadband"),
   ("providers", match p.providers with
                 | some (h :: t) => String.intercalate "," (h :: t)
                 | _ => ""),
   ("sortBy", match p.sortBy with | some v => v.value | none => "Recommended"),
   ("speedInMb", match p.speedInMb with | some v => v.value | none => ""),
   ("tab", if p.tab = "" then "alldeals" else p.tab),
   ("tvChannels", p.tvChannels.getD "")]

/-- The fragment parameters after removing empty values
(`{k: v for k, v in fragment_params.items() if v}`). -/
def fragmentParams (p : BroadbandParams) : List (String × String) :=
  (fragmentParamsAll p).filter fun kv => decide (kv.2 ≠ "")

/-- The fixed fragment key order of the source dict literal. -/
def fragmentKeyOrder : List String :=
  ["addressId", "contractLength", "currentProvider", "matryoshkaSpeed", "newLine",
   "openProduct", "phoneCalls", "productType", "providers", "sortBy", "speedInMb",
   "tab", "tvChannels"]

/-- `"&".join(f"{k}={quote(v)}" for k, v in fragment_params.items())`. -/
def fragment_string (p : BroadbandParams) : String :=
  String.intercalate "&" ((fragmentParams p).map fun kv => kv.1 ++ "=" ++ pyQuote kv.2)

/-- The URL assembled before scheme fix-up:
`{base_url}?location={quote(location)}#/` plus, when any fragment entries
remain, `?{encoded_fragment}`. -/
def assembled_url (base_url : String) (p : BroadbandParams) : String :=
  let url0 := base_url ++ "?location=" ++ pyQuote p.postcode_for_url ++ "#/"
  if fragmentParams p = [] then url0 else url0 ++ "?" ++ fragment_string p

/-- Scheme detection of `urllib.parse.urlparse`: the prefix before the
first `:` is a scheme when it is non-empty, starts with a letter, consists
of letters, digits, `+`, `-`, `.`, and the `:` occurs before any
`/`, `?` or `#`. -/
def findScheme : List Char → List Char → Option (List Char)
  | [], _ => none
  | c :: rest, acc =>
      if c = ':' then some acc.reverse
      else if c = '/' ∨ c = '?' ∨ c = '#' then none
      else findScheme rest (c :: acc)

/-- ASCII letter. -/
def isAsciiLetter (c : Char) : Bool :=
  isUpperAZ c || (decide (97 ≤ c.toNat) && decide (c.toNat ≤ 122))

/-- A character allowed inside a URL scheme. -/
def schemeCharOK (c : Char) : Bool :=
  isAsciiLetter c || isDigit09 c || decide (c = '+') || decide (c = '-') || decide (c = '.')

/-- Whether `urlparse` would report a non-empty scheme for the string. -/
def urlHasScheme (s : String) : Bool :=
  match findScheme s.data [] with
  | some pre =>
      match pre with
      | [] => false
      | c :: _ => isAsciiLetter c && pre.all schemeCharOK
  | none => false

/-- The URL after the scheme fix-up step: when `urlparse` finds no scheme
the source re-assembles the URL with scheme `https`, which prepends
`https:` to the string. -/
def final_url (base_url : String) (p : BroadbandParams) : String :=
  if urlHasScheme (assembled_url base_url p) then assembled_url base_url p
  else "https:" ++ assembled_url base_url p

/-- Model of the acceptance side of the `pydantic` v2 `HttpUrl` check
(`parse_obj_as(HttpUrl, url)`): the string must start with `http://` or
`https://` followed by at least one host character and respect the
`HttpUrl` length constraint of 2083 characters.  Host validation beyond a
first non-delimiter character is not modelled; the claims below depend on
this check only through which branch of `generate` is taken, never through
its exact acceptance boundary. -/
def httpPrefixCheck : List Char → Bool
  | 'h' :: 't' :: 't' :: 'p' :: ':' :: '/' :: '/' :: c :: _ =>
      !(c = '/' || c = '?' || c = '#')
  | 'h' :: 't' :: 't' :: 'p' :: 's' :: ':' :: '/' :: '/' :: c :: _ =>
      !(c = '/' || c = '?' || c = '#')
  | _ => false

/-- Boolean validity of the final URL. -/
def isValidHttpUrl (s : String) : Bool :=
  httpPrefixCheck s.data && decide (s.data.length ≤ 2083)

/-- ASCII lowercasing of one character, as applied by URL host
normalization. -/
def toLowerChar (c : Char) : Char :=
  if 65 ≤ c.toNat ∧ c.toNat ≤ 90 then Char.ofNat (c.toNat + 32) else c

/-- Split a character list at the first occurrence of `sep`, dropping the
separator; `none` when `sep` does not occur. -/
def splitAtChar (sep : Char) : List Char → Option (List Char × List Char)
  | [] => none
  | c :: rest =>
      if c = sep then some ([], rest)
      else (splitAtChar sep rest).map fun p => (c :: p.1, p.2)

/-- Split the part after `scheme://` into the authority (everything before
the first `/`, `?` or `#`) and the remainder starting at that
delimiter. -/
def splitAuthority : List Char → List Char × List Char
  | [] => ([], [])
  | c :: rest =>
      if c = '/' ∨ c = '?' ∨ c = '#' then ([], c :: rest)
      else
        let p := splitAuthority rest
        (c :: p.1, p.2)

/-- Normalization of the authority component: the optional `user@` part is
kept, the host is ASCII-lowercased, and an explicit default port (`80` for
http, `443` for https) is dropped. -/
def normalizeAuthority (isHttps : Bool) (auth : List Char) : List Char :=
  let up := match splitAtChar '@' auth with
    | some (u, hp) => (u ++ ['@'], hp)
    | none => ([], auth)
  let hp := match splitAtChar ':' up.2 with
    | some (h, po) => (h, some po)
    | none => (up.2, none)
  let port := match hp.2 with
    | some po =>
        if (isHttps = true ∧ po = ['4', '4', '3']) ∨ (isHttps = false ∧ po = ['8', '0'])
        then [] else ':' :: po
    | none => []
  up.1 ++ hp.1.map toLowerChar ++ port

/-- Normalization of everything after `scheme://`: the authority is
normalized and a `/` is inserted when the path is empty; path, query and
fragment characters are kept unchanged. -/
def normalizeAfterScheme (isHttps : Bool) (l : List Char) : List Char :=
  let p := splitAuthority l
  let rest := match p.2 with
    | [] => ['/']
    | '/' :: r => '/' :: r
    | r => '/' :: r
  normalizeAuthority isHttps p.1 ++ rest

/-- Model of the value side of the `pydantic` v2 `HttpUrl` parse on the
ASCII fragment: the stored URL is the normalized form of the input — host
ASCII-lowercased, explicit default port dropped, `/` inserted when the
path is empty — while userinfo, path, query and fragment are kept
unchanged (IDNA and percent-encoding normalization of non-ASCII or
reserved input characters is outside the embedded fragment).  Strings that
do not carry an `http://` or `https://` prefix are returned unchanged;
`generate` only stores this value on inputs accepted by
`isValidHttpUrl`. -/
def parse_http_url (s : String) : String :=
  match s.data with
  | 'h' :: 't' :: 't' :: 'p' :: ':' :: '/' :: '/' :: rest =>
      String.mk (['h', 't', 't', 'p', ':', '/', '/'] ++ normalizeAfterScheme false rest)
  | 'h' :: 't' :: 't' :: 'p' :: 's' :: ':' :: '/' :: '/' :: rest =>
      String.mk (['h', 't', 't', 'p', 's', ':', '/', '/'] ++ normalizeAfterScheme true rest)
  | _ => s

/-- A character allowed in an already-normalized host: ASCII lowercase
letters, digits, `-` and `.` (no uppercase, no port separator, no
userinfo separator, no path/query/fragment delimiter). -/
def isLowerHostChar (c : Char) : Bool :=
  (decide (97 ≤ c.toNat) && decide (c.toNat ≤ 122)) || isDigit09 c ||
  decide (c = '-') || decide (c = '.')

/-- A path character the modelled normalization (and the program's URL
normalization on such inputs) leaves unchanged: ASCII letters, digits and
`-._~%/`. -/
def stablePathChar (c : Char) : Bool :=
  isAsciiLetter c || isDigit09 c || decide (c = '-') || decide (c = '.') ||
  decide (c = '_') || decide (c = '~') || decide (c = '%') || decide (c = '/')

/-- A base URL already in the normal form produced by the `HttpUrl` parse:
an explicit lowercase `http`/`https` scheme, a non-empty lowercase host
with no userinfo and no port, and a `/`-led path of normalization-stable
characters with no query or fragment of its own — the shape of the
injected configuration, e.g. the default
`https://broadband.justmovein.co/packages`. -/
def CanonicalHttpBase (b : String) : Prop :=
  ∃ scheme auth path : String,
    (scheme = "http://" ∨ scheme = "https://") ∧
    b = scheme ++ auth ++ "/" ++ path ∧
    auth.data ≠ [] ∧
    (∀ c ∈ auth.data, isLowerHostChar c = true) ∧
    (∀ c ∈ path.data, stablePathChar c = true)

/-- One entry of `model_dump(exclude_none=True)` for an optional field:
present exactly when the field is not `None`. -/
def dumpOpt {α : Type} (nm : String) (f : α → PVal) : Option α → List (String × PVal)
  | some v => [(nm, f v)]
  | none => []

/-- Embedding of `params.model_dump(exclude_none=True)`: every field whose
value is not `None`, in declaration order.  Non-optional fields
(`postcode`, `matryoshkaSpeed`, `tab`) and optional fields with non-`None`
defaults are always present. -/
def model_dump_exclude_none (p : BroadbandParams) : List (String × PVal) :=
  [("postcode", PVal.s p.postcode)] ++
  dumpOpt "speedInMb" (fun v => PVal.s v.value) p.speedInMb ++
  dumpOpt "contractLength" (fun v => PVal.s v.value) p.contractLength ++
  dumpOpt "phoneCalls" (fun v => PVal.s v.value) p.phoneCalls ++
  dumpOpt "productType" (fun v => PVal.s v.value) p.productType ++
  dumpOpt "providers" PVal.l p.providers ++
  dumpOpt "currentProvider" PVal.s p.currentProvider ++
  dumpOpt "newLine" PVal.b p.newLine ++
  dumpOpt "sortBy" (fun v => PVal.s v.value) p.sortBy ++
  dumpOpt "addressId" PVal.s p.addressId ++
  [("matryoshkaSpeed", PVal.s p.matryoshkaSpeed)] ++
  dumpOpt "openProduct" PVal.s p.openProduct ++
  [("tab", PVal.s p.tab)] ++
  dumpOpt "tvChannels" PVal.s p.tvChannels

/-- Suggestion text for a missing speed. -/
def speed_suggestion : String :=
  "Consider specifying a speed preference: " ++ String.intercalate ", " VALID_SPEEDS

/-- Suggestion text for a missing contract length. -/
def contract_suggestion : String :=
  "You can filter by contract length: " ++ String.intercalate ", " VALID_CONTRACT_LENGTHS

/-- Suggestion text for missing providers. -/
def providers_suggestion : String :=
  "You can filter by specific providers (e.g., BT, Sky, Hyperoptic)"

/-- Suggestion text for the default sort order. -/
def sort_suggestion : String :=
  "Try sorting by \x27First Year Cost\x27 or \x27Avg. Monthly Cost\x27 for better deals"

/-- Embedding of `_generate_suggestions`: the four rules in source order,
capped at three suggestions. -/
def generate_suggestions (p : BroadbandParams) (missing : List String) : List String :=
  ((if "speedInMb" ∈ missing then [speed_suggestion] else []) ++
   (if "contractLength" ∈ missing then [contract_suggestion] else []) ++
   (if "providers" ∈ (model_dump_exclude_none p).map Prod.fst then []
    else [providers_suggestion]) ++
   (if p.sortBy = none ∨ p.sortBy = some SortBy.recommended then [sort_suggestion]
    else [])).take 3

/-- Embedding of `_build_success_message`. -/
def build_success_message (p : BroadbandParams) : String :=
  let filters :=
    (match p.speedInMb with | some v => ["speed: " ++ v.value] | none => []) ++
    (match p.contractLength with | some v => ["contract: " ++ v.value] | none => []) ++
    (match p.providers with
     | some (h :: t) => ["providers: " ++ String.intercalate ", " (h :: t)]
     | _ => []) ++
    (match p.productType with | some v => ["type: " ++ v.value] | none => [])
  "Generated URL for postcode " ++ p.postcode ++
    (if filters = [] then "" else " with filters: " ++ String.intercalate ", " filters)

/-- Embedding of `_format_validation_errors`: a single error is reported
alone, otherwise the first three are joined with `"; "`. -/
def format_validation_errors (errors : List String) : String :=
  match errors with
  | [e] => e
  | _ => String.intercalate "; " (errors.take 3)

/-! ## Raw input validation (`BroadbandParams.model_validate`) -/

/-- Raw, pre-validation parameter input (the dict handed to pydantic).
Structure defaults model the unsupplied-field defaults. -/
structure RawParams where
  postcode : String
  speedInMb : Option String := none
  contractLength : Option String := none
  phoneCalls : Option String := none
  productType : Option String := none
  providers : RawProviders := .noneVal
  currentProvider : Option String := none
  newLine : Option Bool := none
  sortBy : Option String := none
  addressId : Option String := some ""
  matryoshkaSpeed : String := "Broadband"
  openProduct : Option String := some ""
  tab : String := "alldeals"
  tvChannels : Option String := some ""
deriving DecidableEq, Repr

def Speed.parse (s : String) : Option Speed :=
  if s = "10Mb" then some .mb10 else if s = "30Mb" then some .mb30
  else if s = "55Mb" then some .mb55 else if s = "100Mb" then some .mb100 else none

def ContractLength.parse (s : String) : Option ContractLength :=
  if s = "12 months" then some .m12 else if s = "18 months" then some .m18
  else if s = "24 months" then some .m24 else none

def PhoneCalls.parse (s : String) : Option PhoneCalls :=
  if s = "Cheapest" then some .cheapest
  else if s = "Show me everything" then some .showAll
  else if s = "Evening and Weekend" then some .eveningWeekend
  else if s = "Anytime" then some .anytime
  else if s = "No inclusive" then some .noInclusive
  else if s = "No phone line" then some .noLine else none

def ProductType.parse (s : String) : Option ProductType :=
  if s = "broadband" then some .broadband
  else if s = "broadband,phone" then some .broadbandPhone
  else if s = "broadband,phone,tv" then some .broadbandPhoneTv else none

def SortBy.parse (s : String) : Option SortBy :=
  if s = "Recommended" then some .recommended
  else if s = "First Year Cost" then some .firstYearCost
  else if s = "Avg. Monthly Cost" then some .avgMonthlyCost
  else if s = "Total Contract Cost" then some .totalContractCost
  else if s = "Setup Costs" then some .setupCosts
  else if s = "Contract Length" then some .contractLength
  else if s = "Speed" then some .speed
  else if s = "Usage" then some .usage else none

/-- Validation of one optional enum-valued field: absent input is fine,
present input must parse to a declared literal value. -/
def parseOptEnum {α : Type} (f : String → Option α) (field : String) :
    Option String → Except String (Option α)
  | none => .ok none
  | some s =>
      match f s with
      | some v => .ok (some v)
      | none =>
          .error ("value is not a valid enumeration member for " ++ field ++ ": " ++ s)

/-- Error list of one field validation. -/
def exceptErrors {α : Type} : Except String α → List String
  | .error e => [e]
  | .ok _ => []

/-- Embedding of `BroadbandParams.model_validate`: every field validator
runs and all failures are collected, in field declaration order. -/
def BroadbandParams.model_validate (r : RawParams) :
    Except (List String) BroadbandParams :=
  let pc := BroadbandParams.validate_postcode r.postcode
  let sp := parseOptEnum Speed.parse "speedInMb" r.speedInMb
  let cl := parseOptEnum ContractLength.parse "contractLength" r.contractLength
  let ph := parseOptEnum PhoneCalls.parse "phoneCalls" r.phoneCalls
  let pt := parseOptEnum ProductType.parse "productType" r.productType
  let sb := parseOptEnum SortBy.parse "sortBy" r.sortBy
  match pc, sp, cl, ph, pt, sb with
  | .ok pcv, .ok spv, .ok clv, .ok phv, .ok ptv, .ok sbv =>
      .ok { postcode := pcv, speedInMb := spv, contractLength := clv,
            phoneCalls := phv, productType := ptv,
            providers := coerce_providers r.providers,
            currentProvider := r.currentProvider, newLine := r.newLine,
            sortBy := sbv, addressId := r.addressId,
            matryoshkaSpeed := r.matryoshkaSpeed, openProduct := r.openProduct,
            tab := r.tab, tvChannels := r.tvChannels }
  | _, _, _, _, _, _ =>
      .error (exceptErrors pc ++ exceptErrors sp ++ exceptErrors cl ++
              exceptErrors ph ++ exceptErrors pt ++ exceptErrors sb)

/-- The input to `generate`: either an already-validated `BroadbandParams`
or raw input that must first be validated (the `isinstance` check). -/
inductive GenInput where
  | raw (r : RawParams)
  | validated (p : BroadbandParams)
deriving DecidableEq, Repr

/-- The success/failure core of `generate` on a validated parameter set:
assemble the URL, fix the scheme, validate as `HttpUrl`, and build the
result object. -/
def generate_validated (base_url : String) (p : BroadbandParams) :
    URLGenerationResult :=
  if isValidHttpUrl (final_url base_url p) then
    { success := true,
      message := build_success_message p,
      url := some (parse_http_url (final_url base_url p)),
      parameters_used := model_dump_exclude_none p,
      missing_parameters := p.get_missing_parameters,
      suggestions := generate_suggestions p p.get_missing_parameters }
  else
    { success := false,
      message := "Failed to generate valid URL: URL is not a valid HTTP URL",
      url := none,
      parameters_used := model_dump_exclude_none p }

/-- Embedding of `URLGenerator.generate`. -/
def URLGenerator.generate (base_url : String) (params : GenInput) :
    URLGenerationResult :=
  match params with
  | .validated p => generate_validated base_url p
  | .raw r =>
      match BroadbandParams.model_validate r with
      | .error errs =>
          { success := false,
            message := "Invalid parameters: " ++ format_validation_errors errs,
            url := none,
            parameters_used := [] }
      | .ok p => generate_validated base_url p

/-! ## Claim-level postcode format

The permissive UK postcode format of the spec, in its spaced and unspaced
forms: an outward code `[A-Z]{1,2}\d[A-Z0-9]?`, optionally one space, and
an inward code `\d[A-Z]{2}`. -/

/-- Outward code shapes of the permissive postcode format. -/
def outwardOK : List Char → Bool
  | [a, b] => isUpperAZ a && isDigit09 b
  | [a, b, c] =>
      (isUpperAZ a && isUpperAZ b && isDigit09 c) ||
      (isUpperAZ a && isDigit09 b && (isUpperAZ c || isDigit09 c))
  | [a, b, c, d] =>
      isUpperAZ a && isUpperAZ b && isDigit09 c && (isUpperAZ d || isDigit09 d)
  | _ => false

/-- Inward code shape of the permissive postcode format. -/
def inwardOK : List Char → Bool
  | [a, b, c] => isDigit09 a && isUpperAZ b && isUpperAZ c
  | _ => false

/-! ## Supporting lemmas -/

lemma string_data_append (s t : String) : (s ++ t).data = s.data ++ t.data := rfl

lemma string_ext {s t : String} (h : s.data = t.data) : s = t :=
  congrArg String.mk h

lemma str_append_assoc (a b c : String) : a ++ b ++ c = a ++ (b ++ c) := by
  apply string_ext; simp [string_data_append]

lemma toLowerChar_eq_self (c : Char) (h : isLowerHostChar c = true) : toLowerChar c = c := by
  rw [toLowerChar, if_neg]
  intro hcon
  simp [isLowerHostChar, isDigit09] at h
  rcases h with ((h | h) | rfl) | rfl
  · omega
  · omega
  · exact absurd hcon (by decide)
  · exact absurd hcon (by decide)

lemma splitAtChar_none (sep : Char) (l : List Char) (h : ∀ c ∈ l, ¬(c = sep)) :
    splitAtChar sep l = none := by
  induction l with
  | nil => rfl
  | cons c rest ih =>
    rw [splitAtChar, if_neg (h c (by simp))]
    rw [ih fun x hx => h x (by simp [hx])]
    rfl

lemma splitAuthority_append (auth rest : List Char)
    (h : ∀ c ∈ auth, isLowerHostChar c = true) :
    splitAuthority (auth ++ '/' :: rest) = (auth, '/' :: rest) := by
  induction auth with
  | nil => simp [splitAuthority]
  | cons c t ih =>
    have hc := h c (by simp)
    have hnd : ¬(c = '/' ∨ c = '?' ∨ c = '#') := by
      rintro (rfl | rfl | rfl) <;> exact absurd hc (by decide)
    rw [List.cons_append, splitAuthority, if_neg hnd]
    rw [ih fun x hx => h x (by simp [hx])]

lemma normalizeAuthority_eq_self (isHttps : Bool) (auth : List Char)
    (h : ∀ c ∈ auth, isLowerHostChar c = true) :
    normalizeAuthority isHttps auth = auth := by
  rw [normalizeAuthority]
  rw [splitAtChar_none '@' auth fun c hc heq => by
    subst heq; exact absurd (h _ hc) (by decide)]
  rw [splitAtChar_none ':' auth fun c hc heq => by
    subst heq; exact absurd (h _ hc) (by decide)]
  simp only []
  rw [List.map_congr_left fun c hc => toLowerChar_eq_self c (h c hc)]
  simp

lemma parse_http_url_stable (b s : String) (hb : CanonicalHttpBase b) :
    parse_http_url (b ++ s) = b ++ s := by
  obtain ⟨scheme, auth, path, hsch, rfl, hne, hauth, hpath⟩ := hb
  have hre : ∀ sch : String, sch ++ auth ++ "/" ++ path ++ s =
      sch ++ (auth ++ ("/" ++ (path ++ s))) := by
    intro sch; apply string_ext; simp [string_data_append]
  have hafter : normalizeAfterScheme false (auth ++ ("/" ++ (path ++ s))).data =
      (auth ++ ("/" ++ (path ++ s))).data ∧
      normalizeAfterScheme true (auth ++ ("/" ++ (path ++ s))).data =
      (auth ++ ("/" ++ (path ++ s))).data := by
    have hd2 : (auth ++ ("/" ++ (path ++ s))).data =
        auth.data ++ '/' :: (path.data ++ s.data) := by
      simp [string_data_append]
    constructor <;>
    · rw [hd2, normalizeAfterScheme, splitAuthority_append auth.data _ hauth]
      simp only []
      rw [normalizeAuthority_eq_self _ auth.data hauth]
  rcases hsch with rfl | rfl
  · rw [hre]
    have hstep : parse_http_url ("http://" ++ (auth ++ ("/" ++ (path ++ s)))) =
        String.mk (['h', 't', 't', 'p', ':', '/', '/'] ++
          normalizeAfterScheme false (auth ++ ("/" ++ (path ++ s))).data) := rfl
    rw [hstep, hafter.1]
    rfl
  · rw [hre]
    have hstep : parse_http_url ("https://" ++ (auth ++ ("/" ++ (path ++ s)))) =
        String.mk (['h', 't', 't', 'p', 's', ':', '/', '/'] ++
          normalizeAfterScheme true (auth ++ ("/" ++ (path ++ s))).data) := rfl
    rw [hstep, hafter.2]
    rfl

lemma canonical_scheme (b : String) (hb : CanonicalHttpBase b) :
    ∃ r, b = "http://" ++ r ∨ b = "https://" ++ r := by
  obtain ⟨scheme, auth, path, hsch, rfl, hne, hauth, hpath⟩ := hb
  refine ⟨auth ++ "/" ++ path, ?_⟩
  rcases hsch with rfl | rfl
  · left; apply string_ext; simp [string_data_append]
  · right; apply string_ext; simp [string_data_append]


lemma matryoshka_val_ne (p : BroadbandParams) :
    (if p.matryoshkaSpeed = "" then "Broadband" else p.matryoshkaSpeed) ≠ "" := by
  split <;> simp_all

lemma matryoshka_mem (p : BroadbandParams) :
    ("matryoshkaSpeed", if p.matryoshkaSpeed = "" then "Broadband" else p.matryoshkaSpeed) ∈
      fragmentParams p := by
  apply List.mem_filter.mpr
  constructor
  · simp [fragmentParamsAll]
  · simpa using matryoshka_val_ne p

lemma fragmentParams_ne_nil (p : BroadbandParams) : fragmentParams p ≠ [] :=
  List.ne_nil_of_mem (matryoshka_mem p)

lemma productType_value_ne_empty (v : ProductType) : v.value ≠ "" := by
  cases v <;> decide

lemma sortBy_value_ne_empty (v : SortBy) : v.value ≠ "" := by
  cases v <;> decide

lemma productType_mem (p : BroadbandParams) :
    ("productType", match p.productType with | some v => v.value | none => "broadband") ∈
      fragmentParams p := by
  apply List.mem_filter.mpr
  refine ⟨by simp [fragmentParamsAll], ?_⟩
  cases h : p.productType with
  | none => decide
  | some v => simpa using productType_value_ne_empty v

lemma sortBy_mem (p : BroadbandParams) :
    ("sortBy", match p.sortBy with | some v => v.value | none => "Recommended") ∈
      fragmentParams p := by
  apply List.mem_filter.mpr
  refine ⟨by simp [fragmentParamsAll], ?_⟩
  cases h : p.sortBy with
  | none => decide
  | some v => simpa using sortBy_value_ne_empty v

lemma tab_mem (p : BroadbandParams) :
    ("tab", if p.tab = "" then "alldeals" else p.tab) ∈ fragmentParams p := by
  apply List.mem_filter.mpr
  refine ⟨by simp [fragmentParamsAll], ?_⟩
  split <;> simp_all

lemma findScheme_skip (c : Char) (l acc : List Char) (h1 : ¬c = ':')
    (h2 : ¬(c = '/' ∨ c = '?' ∨ c = '#')) :
    findScheme (c :: l) acc = findScheme l (c :: acc) := by
  simp [findScheme, h1, h2]

lemma urlHasScheme_http (r : String) : urlHasScheme ("http://" ++ r) = true := by
  have hd : ("http://" ++ r).data =
      'h' :: 't' :: 't' :: 'p' :: ':' :: '/' :: '/' :: r.data := rfl
  rw [urlHasScheme, hd]
  rw [findScheme_skip _ _ _ (by decide) (by decide)]
  rw [findScheme_skip _ _ _ (by decide) (by decide)]
  rw [findScheme_skip _ _ _ (by decide) (by decide)]
  rw [findScheme_skip _ _ _ (by decide) (by decide)]
  simp [findScheme]
  decide

lemma urlHasScheme_https (r : String) : urlHasScheme ("https://" ++ r) = true := by
  have hd : ("https://" ++ r).data =
      'h' :: 't' :: 't' :: 'p' :: 's' :: ':' :: '/' :: '/' :: r.data := rfl
  rw [urlHasScheme, hd]
  rw [findScheme_skip _ _ _ (by decide) (by decide)]
  rw [findScheme_skip _ _ _ (by decide) (by decide)]
  rw [findScheme_skip _ _ _ (by decide) (by decide)]
  rw [findScheme_skip _ _ _ (by decide) (by decide)]
  rw [findScheme_skip _ _ _ (by decide) (by decide)]
  simp [findScheme]
  decide

lemma assembled_url_eq (b : String) (p : BroadbandParams) :
    assembled_url b p =
      b ++ "?location=" ++ pyQuote p.postcode_for_url ++ "#/?" ++ fragment_string p := by
  rw [assembled_url]
  rw [if_neg (fragmentParams_ne_nil p)]
  apply string_ext
  simp [string_data_append]

lemma final_url_eq (b : String) (p : BroadbandParams)
    (hb : ∃ r, b = "http://" ++ r ∨ b = "https://" ++ r) :
    final_url b p = assembled_url b p := by
  obtain ⟨r, h | h⟩ := hb <;> subst h <;>
    rw [final_url, if_pos] <;>
    rw [assembled_url_eq, str_append_assoc, str_append_assoc, str_append_assoc]
  · exact urlHasScheme_http _
  · exact urlHasScheme_https _

lemma generate_validated_success (b : String) (p : BroadbandParams)
    (hs : (generate_validated b p).success = true) :
    generate_validated b p =
      { success := true,
        message := build_success_message p,
        url := some (parse_http_url (final_url b p)),
        parameters_used := model_dump_exclude_none p,
        missing_parameters := p.get_missing_parameters,
        suggestions := generate_suggestions p p.get_missing_parameters } := by
  rw [generate_validated] at hs ⊢
  split at hs
  · rw [if_pos ‹_›]
  · simp at hs

lemma generate_validated_params_used (b : String) (p : BroadbandParams) :
    (generate_validated b p).parameters_used = model_dump_exclude_none p := by
  rw [generate_validated]
  split <;> rfl

lemma generated_url_eq (b : String) (p : BroadbandParams) (hb : CanonicalHttpBase b)
    (hs : (generate_validated b p).success = true) :
    (generate_validated b p).url =
      some (b ++ "?location=" ++ pyQuote p.postcode_for_url ++ "#/?" ++ fragment_string p) := by
  rw [generate_validated_success b p hs, final_url_eq b p (canonical_scheme b hb),
    assembled_url_eq]
  have hassoc : b ++ "?location=" ++ pyQuote p.postcode_for_url ++ "#/?" ++ fragment_string p
      = b ++ ("?location=" ++ (pyQuote p.postcode_for_url ++ ("#/?" ++ fragment_string p))) := by
    apply string_ext; simp [string_data_append]
  rw [hassoc, parse_http_url_stable b _ hb]

lemma mem_ite_singleton {c : Prop} [Decidable c] {x y : String} :
    (x ∈ if c then [y] else ([] : List String)) ↔ c ∧ x = y := by
  split <;> simp_all

lemma missing_speed_iff (p : BroadbandParams) :
    ("speedInMb" ∈ p.get_missing_parameters) ↔ p.speedInMb = none := by
  simp [BroadbandParams.get_missing_parameters, mem_ite_singleton]

lemma missing_contract_iff (p : BroadbandParams) :
    ("contractLength" ∈ p.get_missing_parameters) ↔ p.contractLength = none := by
  simp [BroadbandParams.get_missing_parameters, mem_ite_singleton]

lemma exists_mem_dumpOpt {α : Type} (nm : String) (f : α → PVal) (o : Option α)
    (x : String) : (∃ v, (x, v) ∈ dumpOpt nm f o) ↔ (x = nm ∧ o ≠ none) := by
  cases o <;> simp [dumpOpt]

lemma dump_providers_iff (p : BroadbandParams) :
    ("providers" ∈ (model_dump_exclude_none p).map Prod.fst) ↔ p.providers ≠ none := by
  simp [model_dump_exclude_none, exists_mem_dumpOpt]

lemma generate_suggestions_missing_eq (p : BroadbandParams) :
    generate_suggestions p p.get_missing_parameters =
      ((if p.speedInMb = none then [speed_suggestion] else []) ++
       (if p.contractLength = none then [contract_suggestion] else []) ++
       (if p.providers = none then [providers_suggestion] else []) ++
       (if p.sortBy = none ∨ p.sortBy = some SortBy.recommended then [sort_suggestion]
        else [])).take 3 := by
  rw [generate_suggestions]
  simp only [missing_speed_iff, missing_contract_iff, dump_providers_iff, ite_not]

lemma intercalate_go_data (s acc : String) (bs : List String) :
    ∃ r, (String.intercalate.go acc s bs).data = acc.data ++ r := by
  induction bs generalizing acc with
  | nil => exact ⟨[], by simp [String.intercalate.go]⟩
  | cons b bs ih =>
      obtain ⟨r, hr⟩ := ih (acc ++ s ++ b)
      exact ⟨s.data ++ b.data ++ r, by
        rw [String.intercalate.go, hr]; simp [string_data_append]⟩

lemma intercalate_ne_empty (h : String) (t : List String) (hh : h ≠ "") :
    String.intercalate "," (h :: t) ≠ "" := by
  show String.intercalate.go h "," t ≠ ""
  obtain ⟨r, hr⟩ := intercalate_go_data "," h t
  intro he
  have hd : h.data ++ r = [] := by
    have h2 := congrArg String.data he
    rw [hr] at h2
    simpa using h2
  exact hh (string_ext (by simpa using (List.append_eq_nil.mp hd).1))

lemma pyUpperChar_space : pyUpperChar ' ' = ' ' := by decide

lemma char_facts (c : Char) (h : (isUpperAZ c || isDigit09 c) = true) :
    pyIsSpace c = false ∧ pyUpperChar c = c ∧ c ≠ ' ' := by
  have hb : 48 ≤ c.toNat ∧ c.toNat ≤ 90 := by
    simp [isUpperAZ, isDigit09] at h
    rcases h with h | h <;> omega
  refine ⟨?_, ?_, ?_⟩
  · have hnot : ¬(c = ' ' ∨ c = '\t' ∨ c = '\n' ∨ c = '\r' ∨ c.toNat = 11 ∨ c.toNat = 12) := by
      rintro (rfl | rfl | rfl | rfl | h | h)
      · exact absurd hb (by decide)
      · exact absurd hb (by decide)
      · exact absurd hb (by decide)
      · exact absurd hb (by decide)
      · omega
      · omega
    simpa [pyIsSpace, and_assoc] using hnot
  · rw [pyUpperChar, if_neg (by omega)]
  · rintro rfl; exact absurd hb (by decide)

lemma strfilter_nil_iff (X : List String) :
    ((X.map pyStripStr).filter fun t => decide (t ≠ "")) = [] ↔
      ∀ x ∈ X, pyStripStr x = "" := by
  simp [List.filter_eq_nil_iff]

lemma validate_postcode_spec (ow iw : List Char) (how : outwardOK ow = true)
    (hiw : inwardOK iw = true) (l : List Char)
    (hl : l = ow ++ iw ∨ l = ow ++ ' ' :: iw) :
    BroadbandParams.validate_postcode (String.mk l) =
      .ok (String.mk (ow ++ ' ' :: iw)) ∧
    (ow ++ ' ' :: iw).map (fun c => if c = ' ' then '+' else c) = ow ++ '+' :: iw := by
  rcases iw with _ | ⟨d1, _ | ⟨x, _ | ⟨y, _ | ⟨z, t⟩⟩⟩⟩ <;> simp [inwardOK] at hiw
  obtain ⟨⟨hd1, hx⟩, hy⟩ := hiw
  obtain ⟨hd11, hd12, hd13⟩ := char_facts d1 (by simp [hd1])
  obtain ⟨hx1, hx2, hx3⟩ := char_facts x (by simp [hx])
  obtain ⟨hy1, hy2, hy3⟩ := char_facts y (by simp [hy])
  rcases ow with _ | ⟨a, _ | ⟨b, _ | ⟨c, _ | ⟨d, _ | ⟨e, t2⟩⟩⟩⟩⟩ <;> simp [outwardOK] at how
  · obtain ⟨ha, hb⟩ := how
    obtain ⟨ha1, ha2, ha3⟩ := char_facts a (by simp [ha])
    obtain ⟨hb1, hb2, hb3⟩ := char_facts b (by simp [hb])
    rcases hl with rfl | rfl <;>
      simp [BroadbandParams.validate_postcode, BroadbandParams.normalize_postcode_input,
        BroadbandParams.validate_postcode_format, pyStrip, List.dropWhile, pyUpperChar_space,
        ha1, ha2, ha3, hb1, hb2, hb3, hd11, hd12, hd13, hx1, hx2, hx3, hy1, hy2, hy3,
        Ne.symm ha3, Ne.symm hb3, Ne.symm hd13, Ne.symm hx3, Ne.symm hy3,
        ukPostcodeMatch, matchDigitPart, matchOptAlnum, matchInward,
        ha, hb, hd1, hx, hy]
  · rcases how with ⟨⟨ha, hb⟩, hc⟩ | ⟨⟨ha, hb⟩, hc⟩
    · obtain ⟨ha1, ha2, ha3⟩ := char_facts a (by simp [ha])
      obtain ⟨hb1, hb2, hb3⟩ := char_facts b (by simp [hb])
      obtain ⟨hc1, hc2, hc3⟩ := char_facts c (by simp [hc])
      rcases hl with rfl | rfl <;>
        simp [BroadbandParams.validate_postcode, BroadbandParams.normalize_postcode_input,
          BroadbandParams.validate_postcode_format, pyStrip, List.dropWhile, pyUpperChar_space,
          ha1, ha2, ha3, hb1, hb2, hb3, hc1, hc2, hc3, hd11, hd12, hd13, hx1, hx2, hx3,
          hy1, hy2, hy3,
          Ne.symm ha3, Ne.symm hb3, Ne.symm hc3, Ne.symm hd13, Ne.symm hx3, Ne.symm hy3,
          ukPostcodeMatch, matchDigitPart, matchOptAlnum, matchInward,
          ha, hb, hc, hd1, hx, hy]
    · obtain ⟨ha1, ha2, ha3⟩ := char_facts a (by simp [ha])
      obtain ⟨hb1, hb2, hb3⟩ := char_facts b (by simp [hb])
      obtain ⟨hc1, hc2, hc3⟩ := char_facts c (by rcases hc with h | h <;> simp [h])
      rcases hl with rfl | rfl <;>
        simp [BroadbandParams.validate_postcode, BroadbandParams.normalize_postcode_input,
          BroadbandParams.validate_postcode_format, pyStrip, List.dropWhile, pyUpperChar_space,
          ha1, ha2, ha3, hb1, hb2, hb3, hc1, hc2, hc3, hd11, hd12, hd13, hx1, hx2, hx3,
          hy1, hy2, hy3,
          Ne.symm ha3, Ne.symm hb3, Ne.symm hc3, Ne.symm hd13, Ne.symm hx3, Ne.symm hy3,
          ukPostcodeMatch, matchDigitPart, matchOptAlnum, matchInward,
          ha, hb, hd1, hx, hy] <;>
        rcases hc with h | h <;> simp [h]
  · obtain ⟨⟨⟨ha, hb⟩, hc⟩, hd⟩ := how
    obtain ⟨ha1, ha2, ha3⟩ := char_facts a (by simp [ha])
    obtain ⟨hb1, hb2, hb3⟩ := char_facts b (by simp [hb])
    obtain ⟨hc1, hc2, hc3⟩ := char_facts c (by simp [hc])
    obtain ⟨hd01, hd02, hd03⟩ := char_facts d (by rcases hd with h | h <;> simp [h])
    rcases hl with rfl | rfl <;>
      simp [BroadbandParams.validate_postcode, BroadbandParams.normalize_postcode_input,
        BroadbandParams.validate_postcode_format, pyStrip, List.dropWhile, pyUpperChar_space,
        ha1, ha2, ha3, hb1, hb2, hb3, hc1, hc2, hc3, hd01, hd02, hd03, hd11, hd12, hd13,
        hx1, hx2, hx3, hy1, hy2, hy3,
        Ne.symm ha3, Ne.symm hb3, Ne.symm hc3, Ne.symm hd03, Ne.symm hd13, Ne.symm hx3,
        Ne.symm hy3,
        ukPostcodeMatch, matchDigitPart, matchOptAlnum, matchInward,
        ha, hb, hc, hd1, hx, hy] <;>
      rcases hd with h | h <;> simp [h]

/-! ## Claim theorems -/

/-- Claim C1: for every validated parameter set on which `generate`
succeeds with a base URL already in the normal form produced by the
`HttpUrl` parse (explicit lowercase http or https scheme, lowercase host,
no port, `/`-led stable path — the shape of the injected configuration,
on which the parse's normalization is the identity), the produced URL is
exactly `{baseURL}?location={encoded postcode}#/?{fragment}`, the fragment
keys appear as an in-order sublist of the fixed key order `addressId,
contractLength, currentProvider, matryoshkaSpeed, newLine, openProduct,
phoneCalls, productType, providers, sortBy, speedInMb, tab, tvChannels`,
and every emitted fragment entry has a non-empty value. -/
theorem claim_C1_url_shape (b : String) (p : BroadbandParams)
    (hb : CanonicalHttpBase b)
    (hs : (URLGenerator.generate b (.validated p)).success = true) :
    (URLGenerator.generate b (.validated p)).url =
      some (b ++ "?location=" ++ pyQuote p.postcode_for_url ++ "#/?" ++ fragment_string p) ∧
    ((fragmentParams p).map Prod.fst).Sublist fragmentKeyOrder ∧
    ∀ kv ∈ fragmentParams p, kv.2 ≠ "" := by
  have he : URLGenerator.generate b (.validated p) = generate_validated b p := rfl
  refine ⟨?_, ?_, ?_⟩
  · rw [he]
    exact generated_url_eq b p hb hs
  · have h1 : (fragmentParamsAll p).map Prod.fst = fragmentKeyOrder := rfl
    exact h1 ▸ ((List.filter_sublist _).map Prod.fst)
  · intro kv hkv
    simpa using (List.mem_filter.mp hkv).2

/-- Claim C1 witness: the default base URL and a postcode-only parameter
set instantiate the theorem. -/
theorem claim_C1_url_shape_witness :
    (URLGenerator.generate "https://broadband.justmovein.co/packages"
        (.validated { postcode := "E14 9WB" })).url =
      some ("https://broadband.justmovein.co/packages" ++ "?location=" ++
        pyQuote ({ postcode := "E14 9WB" } : BroadbandParams).postcode_for_url ++ "#/?" ++
        fragment_string { postcode := "E14 9WB" }) :=
  (claim_C1_url_shape "https://broadband.justmovein.co/packages"
    { postcode := "E14 9WB" }
    ⟨"https://", "broadband.justmovein.co", "packages", Or.inr rfl, by decide,
      by decide, by decide, by decide⟩ (by decide)).1

/-- Claim C2: every input matching the permissive UK postcode format, in
spaced form (outward code, one space, inward code) or unspaced form,
passes normalisation followed by format validation, normalising to
`outward ++ " " ++ inward`, and the URL-safe token replaces the single
internal space by `+`. -/
theorem claim_C2_postcode_roundtrip (ow iw s : String)
    (how : outwardOK ow.data = true) (hiw : inwardOK iw.data = true)
    (hs : s = ow ++ iw ∨ s = ow ++ " " ++ iw) :
    BroadbandParams.validate_postcode s = .ok (ow ++ " " ++ iw) ∧
    postcode_token (ow ++ " " ++ iw) = ow ++ "+" ++ iw := by
  have hl : s.data = ow.data ++ iw.data ∨ s.data = ow.data ++ ' ' :: iw.data := by
    rcases hs with rfl | rfl
    · left; exact string_data_append ow iw
    · right; simp [string_data_append]
  have h := validate_postcode_spec ow.data iw.data how hiw s.data hl
  have e2 : String.mk (ow.data ++ ' ' :: iw.data) = ow ++ " " ++ iw := by
    apply string_ext; simp [string_data_append]
  constructor
  · rw [← e2]; exact h.1
  · apply string_ext
    have e4 : (postcode_token (ow ++ " " ++ iw)).data =
        (ow.data ++ ' ' :: iw.data).map (fun c => if c = ' ' then '+' else c) := by
      rw [postcode_token]
      have e3 : (ow ++ " " ++ iw).data = ow.data ++ ' ' :: iw.data := by
        simp [string_data_append]
      rw [e3]
    rw [e4, h.2]
    simp [string_data_append]

/-- Claim C2 witness: the unspaced input `"E149WB"` normalises to
`"E14 9WB"` and tokenises to `"E14+9WB"`. -/
theorem claim_C2_postcode_roundtrip_witness :
    BroadbandParams.validate_postcode "E149WB" = .ok ("E14" ++ " " ++ "9WB") ∧
    postcode_token ("E14" ++ " " ++ "9WB") = "E14" ++ "+" ++ "9WB" :=
  claim_C2_postcode_roundtrip "E14" "9WB" "E149WB" (by decide) (by decide)
    (Or.inl (by decide))

/-- Claim C3: the fragment encoding uses the fixed defaults when the field
is unset (`productType` to `broadband`, `sortBy` to `Recommended`,
`matryoshkaSpeed` to `Broadband`, `tab` to `alldeals`); boolean `newLine`
encodes to the literal token `NewLine` exactly when it is true and the
`newLine` key is otherwise omitted; `providers`, when set and non-empty,
joins to one comma-separated string preserving the list order (an entry of
the ordered fragment mapping, surviving the empty-value drop whenever the
normalized list has no empty element). -/
theorem claim_C3_encode_defaults (p : BroadbandParams) :
    (p.productType = none → ("productType", "broadband") ∈ fragmentParams p) ∧
    (p.sortBy = none → ("sortBy", "Recommended") ∈ fragmentParams p) ∧
    (p.matryoshkaSpeed = "Broadband" → ("matryoshkaSpeed", "Broadband") ∈ fragmentParams p) ∧
    (p.tab = "alldeals" → ("tab", "alldeals") ∈ fragmentParams p) ∧
    (p.newLine = some true → ("newLine", "NewLine") ∈ fragmentParams p) ∧
    (p.newLine ≠ some true → "newLine" ∉ (fragmentParams p).map Prod.fst) ∧
    (∀ l, p.providers = some l → l ≠ [] →
      ("providers", String.intercalate "," l) ∈ fragmentParamsAll p ∧
      ("" ∉ l → ("providers", String.intercalate "," l) ∈ fragmentParams p)) := by
  refine ⟨?_, ?_, ?_, ?_, ?_, ?_, ?_⟩
  · intro h
    have hm := productType_mem p
    rw [h] at hm
    exact hm
  · intro h
    have hm := sortBy_mem p
    rw [h] at hm
    exact hm
  · intro h
    have hm := matryoshka_mem p
    rw [h] at hm
    simpa using hm
  · intro h
    have hm := tab_mem p
    rw [h] at hm
    simpa using hm
  · intro h
    apply List.mem_filter.mpr
    refine ⟨by simp [fragmentParamsAll, h], by decide⟩
  · intro hne hmem
    have hgetd : p.newLine.getD false = false := by
      cases hnl : p.newLine with
      | none => rfl
      | some b =>
        cases b
        · rfl
        · exact absurd hnl hne
    rw [List.mem_map] at hmem
    obtain ⟨kv, hkv, hfst⟩ := hmem
    have h2 := List.mem_filter.mp hkv
    have hval : kv.2 ≠ "" := by simpa using h2.2
    have hin := h2.1
    simp [fragmentParamsAll, hgetd] at hin
    rcases hin with rfl | rfl | rfl | rfl | rfl | rfl | rfl | rfl | rfl | rfl | rfl | rfl | rfl <;>
      simp_all
  · intro l hp hl
    cases l with
    | nil => exact absurd rfl hl
    | cons h t =>
      refine ⟨by simp [fragmentParamsAll, hp], ?_⟩
      intro h0
      have hh : h ≠ "" := by
        intro he
        exact h0 (by simp [he])
      apply List.mem_filter.mpr
      refine ⟨by simp [fragmentParamsAll, hp], ?_⟩
      simpa using intercalate_ne_empty h t hh

/-- Claim C3 witness: a parameter set with unset `productType` and
`sortBy`, `newLine` true and providers `["BT", "Sky"]` instantiates every
positive conjunct, and a postcode-only parameter set instantiates the
omitted-`newLine` conjunct. -/
theorem claim_C3_encode_defaults_witness :
    ("productType", "broadband") ∈
      fragmentParams { postcode := "E14 9WB", newLine := some true,
                       providers := some ["BT", "Sky"] } ∧
    ("sortBy", "Recommended") ∈
      fragmentParams { postcode := "E14 9WB", newLine := some true,
                       providers := some ["BT", "Sky"] } ∧
    ("newLine", "NewLine") ∈
      fragmentParams { postcode := "E14 9WB", newLine := some true,
                       providers := some ["BT", "Sky"] } ∧
    ("providers", String.intercalate "," ["BT", "Sky"]) ∈
      fragmentParams { postcode := "E14 9WB", newLine := some true,
                       providers := some ["BT", "Sky"] } ∧
    "newLine" ∉ (fragmentParams { postcode := "E14 9WB" }).map Prod.fst := by
  have h1 := claim_C3_encode_defaults
    { postcode := "E14 9WB", newLine := some true, providers := some ["BT", "Sky"] }
  have h2 := claim_C3_encode_defaults { postcode := "E14 9WB" }
  exact ⟨h1.1 rfl, h1.2.1 rfl, h1.2.2.2.2.1 rfl,
    (h1.2.2.2.2.2.2 ["BT", "Sky"] rfl (by decide)).2 (by decide),
    h2.2.2.2.2.2.1 (by decide)⟩

/-- Claim C4 counterexample: a sequence input whose only element trims to
empty yields the empty list, not the unset value — refuting the claim that
an empty resulting collection always collapses to unset for sequence
inputs as well. -/
theorem claim_C4_counterexample :
    coerce_providers (RawProviders.list [""]) = some [] ∧
    some ([] : List String) ≠ (none : Option (List String)) := by decide

/-- Claim C4 amended: a delimited string splits on commas with each piece
trimmed and empty pieces dropped, and collapses to unset exactly when every
piece trims to empty; a sequence input is trimmed and filtered the same way
but never collapses to unset — its result is the (possibly empty) filtered
list; no result ever contains an empty element. -/
theorem claim_C4_amended :
    (∀ s : String, coerce_providers (.str s) = none ↔
      ∀ piece ∈ pySplitComma s, pyStripStr piece = "") ∧
    (∀ l : List String, coerce_providers (.list l) =
      some ((l.map pyStripStr).filter fun t => decide (t ≠ ""))) ∧
    (∀ r res, coerce_providers r = some res → "" ∉ res) := by
  refine ⟨?_, ?_, ?_⟩
  · intro s
    show (let parts := ((pySplitComma s).map pyStripStr).filter fun t => decide (t ≠ "")
          if parts = [] then none else some parts) = none ↔ _
    simp only []
    split
    · simpa using (strfilter_nil_iff _).mp ‹_›
    · refine ⟨fun hc => absurd hc (by simp), fun hall =>
        absurd ((strfilter_nil_iff _).mpr hall) ‹_›⟩
  · intro l
    rfl
  · intro r res h
    cases r with
    | noneVal => exact absurd h (by simp [coerce_providers])
    | list l =>
      simp only [coerce_providers, Option.some.injEq] at h
      subst h
      intro hmem
      have h2 := (List.mem_filter.mp hmem).2
      simp at h2
    | str s =>
      rw [coerce_providers] at h
      split at h
      · exact absurd h (by simp)
      · rw [Option.some.injEq] at h
        subst h
        intro hmem
        have h2 := (List.mem_filter.mp hmem).2
        simp at h2

/-- Claim C4 amended witness: a sequence with one whitespace element
produces a result without empty elements. -/
theorem claim_C4_amended_witness : "" ∉ (["BT"] : List String) :=
  claim_C4_amended.2.2 (RawProviders.list ["BT", " "]) ["BT"] (by decide)

/-- Claim C5 counterexample: the string input `"BT,BT"` is stored as
`["BT", "BT"]`, in which `"BT"` appears twice — the stored providers value
is not deduplicated. -/
theorem claim_C5_counterexample :
    coerce_providers (.str "BT,BT") = some ["BT", "BT"] ∧
    (["BT", "BT"] : List String).count "BT" = 2 := by decide

/-- Claim C5 amended: the stored providers value is the trimmed list with
empty entries dropped and order preserved, with no deduplication:
`coerceProviders("BT,Sky, Vodafone")` yields `["BT", "Sky", "Vodafone"]`,
and any already-trimmed list of non-empty elements (duplicates included) is
stored unchanged. -/
theorem claim_C5_amended :
    coerce_providers (.str "BT,Sky, Vodafone") = some ["BT", "Sky", "Vodafone"] ∧
    (∀ l : List String, (∀ x ∈ l, pyStripStr x = x ∧ x ≠ "") →
      coerce_providers (.list l) = some l) := by
  refine ⟨by decide, ?_⟩
  intro l h
  show some ((l.map pyStripStr).filter fun t => decide (t ≠ "")) = some l
  rw [Option.some.injEq]
  have hm : l.map pyStripStr = l := by
    rw [List.map_congr_left fun x hx => (h x hx).1]
    exact List.map_id l
  rw [hm]
  rw [List.filter_eq_self.mpr]
  intro a ha
  simpa using (h a ha).2

/-- Claim C5 amended witness: the duplicated clean list `["BT", "BT"]` is
stored unchanged, order preserved and duplicates kept. -/
theorem claim_C5_amended_witness :
    coerce_providers (RawProviders.list ["BT", "BT"]) = some ["BT", "BT"] :=
  claim_C5_amended.2 ["BT", "BT"] (by decide)

/-- Claim C6: every failure path of `generate` returns `success = false`
with no URL and a non-empty message; when raw validation fails the message
is the `"Invalid parameters: "` prefix plus the joined errors; and two or
more simultaneous validation errors are aggregated into one message
separated by `"; "` and truncated to the first three. -/
theorem claim_C6_failure_paths (b : String) (i : GenInput) :
    ((URLGenerator.generate b i).success = false →
      (URLGenerator.generate b i).url = none ∧ (URLGenerator.generate b i).message ≠ "") ∧
    (∀ r errs, i = .raw r → BroadbandParams.model_validate r = .error errs →
      (URLGenerator.generate b i).message =
        "Invalid parameters: " ++ format_validation_errors errs) ∧
    (∀ errs : List String, 2 ≤ errs.length →
      format_validation_errors errs = String.intercalate "; " (errs.take 3)) := by
  have hmsg2 : ("Failed to generate valid URL: URL is not a valid HTTP URL" : String) ≠ "" := by
    decide
  refine ⟨?_, ?_, ?_⟩
  · intro hfail
    cases i with
    | validated p =>
      have he : URLGenerator.generate b (.validated p) = generate_validated b p := rfl
      rw [he] at hfail ⊢
      rw [generate_validated] at hfail ⊢
      by_cases hv : isValidHttpUrl (final_url b p) = true
      · rw [if_pos hv] at hfail
        simp at hfail
      · rw [if_neg hv] at hfail ⊢
        exact ⟨rfl, hmsg2⟩
    | raw r =>
      cases hm : BroadbandParams.model_validate r with
      | error errs =>
        have he : URLGenerator.generate b (.raw r) =
            { success := false,
              message := "Invalid parameters: " ++ format_validation_errors errs,
              url := none, parameters_used := [] } := by
          show (match BroadbandParams.model_validate r with
                | .error errs =>
                    ({ success := false,
                       message := "Invalid parameters: " ++ format_validation_errors errs,
                       url := none, parameters_used := [] } : URLGenerationResult)
                | .ok p => generate_validated b p) = _
          rw [hm]
        rw [he]
        refine ⟨rfl, ?_⟩
        intro hc
        have h2 : ("Invalid parameters: ").data ++ (format_validation_errors errs).data = [] := by
          have h4 := congrArg String.data hc
          rw [string_data_append] at h4
          exact h4
        have h3 := (List.append_eq_nil.mp h2).1
        simp at h3
      | ok p =>
        have he : URLGenerator.generate b (.raw r) = generate_validated b p := by
          show (match BroadbandParams.model_validate r with
                | .error errs =>
                    ({ success := false,
                       message := "Invalid parameters: " ++ format_validation_errors errs,
                       url := none, parameters_used := [] } : URLGenerationResult)
                | .ok p => generate_validated b p) = _
          rw [hm]
        rw [he] at hfail ⊢
        rw [generate_validated] at hfail ⊢
        by_cases hv : isValidHttpUrl (final_url b p) = true
        · rw [if_pos hv] at hfail
          simp at hfail
        · rw [if_neg hv] at hfail ⊢
          exact ⟨rfl, hmsg2⟩
  · intro r errs hi hm
    subst hi
    show (match BroadbandParams.model_validate r with
          | .error errs =>
              ({ success := false,
                 message := "Invalid parameters: " ++ format_validation_errors errs,
                 url := none, parameters_used := [] } : URLGenerationResult)
          | .ok p => generate_validated b p).message = _
    rw [hm]
  · intro errs hlen
    match errs, hlen with
    | e1 :: e2 :: t, _ => rfl

/-- Claim C6 witness: an invalid postcode exercises the failure path, a
request with two invalid enum fields exercises the aggregated message, and
a two-error list exercises the `"; "` join. -/
theorem claim_C6_failure_paths_witness :
    (URLGenerator.generate "https://broadband.justmovein.co/packages"
        (.raw { postcode := "INVALID" })).url = none ∧
    (URLGenerator.generate "https://broadband.justmovein.co/packages"
        (.raw { postcode := "E14 9WB", speedInMb := some "200Mb",
                contractLength := some "7 months" })).message =
      "Invalid parameters: " ++ format_validation_errors
        ["value is not a valid enumeration member for speedInMb: 200Mb",
         "value is not a valid enumeration member for contractLength: 7 months"] ∧
    format_validation_errors ["a", "b"] = String.intercalate "; " (["a", "b"].take 3) := by
  refine ⟨?_, ?_, ?_⟩
  · exact ((claim_C6_failure_paths "https://broadband.justmovein.co/packages"
      (.raw { postcode := "INVALID" })).1 (by decide)).1
  · exact (claim_C6_failure_paths "https://broadband.justmovein.co/packages"
      (.raw { postcode := "E14 9WB", speedInMb := some "200Mb",
              contractLength := some "7 months" })).2.1 _ _ rfl rfl
  · exact (claim_C6_failure_paths "https://broadband.justmovein.co/packages"
      (.raw { postcode := "INVALID" })).2.2 ["a", "b"] (by decide)

/-- Claim C7: `generate` is deterministic — it is a pure function of the
base URL and the input, so equal inputs give identical result objects and
byte-identical URLs; the embedding has no clock, randomness or mutable
state to consult. -/
theorem claim_C7_deterministic (b : String) (i j : GenInput) (h : i = j) :
    URLGenerator.generate b i = URLGenerator.generate b j ∧
    (URLGenerator.generate b i).url = (URLGenerator.generate b j).url := by
  subst h
  exact ⟨rfl, rfl⟩

/-- Claim C7 witness: two calls on the same concrete input agree. -/
theorem claim_C7_deterministic_witness :
    URLGenerator.generate "https://broadband.justmovein.co/packages"
        (.validated { postcode := "E14 9WB" }) =
      URLGenerator.generate "https://broadband.justmovein.co/packages"
        (.validated { postcode := "E14 9WB" }) :=
  (claim_C7_deterministic "https://broadband.justmovein.co/packages"
    (.validated { postcode := "E14 9WB" }) (.validated { postcode := "E14 9WB" }) rfl).1

/-- Claim C8: on every successful call the suggestions are exactly the
first three produced by the four ordered rules — missing speed, missing
contract length, unset providers, and sort order unset-or-Recommended —
each contributing at most one suggestion, so the list never exceeds three
entries. -/
theorem claim_C8_suggestions (b : String) (p : BroadbandParams)
    (hs : (URLGenerator.generate b (.validated p)).success = true) :
    (URLGenerator.generate b (.validated p)).suggestions =
      ((if p.speedInMb = none then [speed_suggestion] else []) ++
       (if p.contractLength = none then [contract_suggestion] else []) ++
       (if p.providers = none then [providers_suggestion] else []) ++
       (if p.sortBy = none ∨ p.sortBy = some SortBy.recommended then [sort_suggestion]
        else [])).take 3 ∧
    (URLGenerator.generate b (.validated p)).suggestions.length ≤ 3 := by
  have he : URLGenerator.generate b (.validated p) = generate_validated b p := rfl
  rw [he, generate_validated_success b p hs]
  refine ⟨generate_suggestions_missing_eq p, ?_⟩
  rw [generate_suggestions_missing_eq p]
  simp [List.length_take]

/-- Claim C8 witness: a postcode-only request has all four rules firing
and still at most three suggestions. -/
theorem claim_C8_suggestions_witness :
    (URLGenerator.generate "https://broadband.justmovein.co/packages"
        (.validated { postcode := "E14 9WB" })).suggestions.length ≤ 3 :=
  (claim_C8_suggestions "https://broadband.justmovein.co/packages"
    { postcode := "E14 9WB" } (by decide)).2

/-- Claim C9 counterexample: a call that supplies only the postcode still
reports the UI-only defaulted fields `addressId`, `matryoshkaSpeed`,
`openProduct`, `tab` and `tvChannels` in `parameters_used`, so the mapping
is not restricted to fields the caller supplied. -/
theorem claim_C9_counterexample :
    (URLGenerator.generate "https://broadband.justmovein.co/packages"
        (.raw { postcode := "E14 9WB" })).parameters_used =
      [("postcode", PVal.s "E14 9WB"), ("addressId", PVal.s ""),
       ("matryoshkaSpeed", PVal.s "Broadband"), ("openProduct", PVal.s ""),
       ("tab", PVal.s "alldeals"), ("tvChannels", PVal.s "")] := by decide

/-- Claim C9 amended: `parametersUsed` equals the model dump excluding
`None` values — every `None`-valued optional field is absent, while
`postcode` and the UI-only fields with non-`None` defaults (`addressId`,
`matryoshkaSpeed`, `openProduct`, `tab`, `tvChannels`) appear even when the
caller did not supply them. -/
theorem claim_C9_parameters_used_amended (b : String) (p : BroadbandParams) :
    (URLGenerator.generate b (.validated p)).parameters_used = model_dump_exclude_none p ∧
    (p.speedInMb = none → "speedInMb" ∉ (model_dump_exclude_none p).map Prod.fst) ∧
    (p.contractLength = none → "contractLength" ∉ (model_dump_exclude_none p).map Prod.fst) ∧
    (p.phoneCalls = none → "phoneCalls" ∉ (model_dump_exclude_none p).map Prod.fst) ∧
    (p.productType = none → "productType" ∉ (model_dump_exclude_none p).map Prod.fst) ∧
    (p.providers = none → "providers" ∉ (model_dump_exclude_none p).map Prod.fst) ∧
    (p.currentProvider = none → "currentProvider" ∉ (model_dump_exclude_none p).map Prod.fst) ∧
    (p.newLine = none → "newLine" ∉ (model_dump_exclude_none p).map Prod.fst) ∧
    (p.sortBy = none → "sortBy" ∉ (model_dump_exclude_none p).map Prod.fst) ∧
    "postcode" ∈ (model_dump_exclude_none p).map Prod.fst ∧
    "matryoshkaSpeed" ∈ (model_dump_exclude_none p).map Prod.fst ∧
    "tab" ∈ (model_dump_exclude_none p).map Prod.fst ∧
    (p.addressId ≠ none → "addressId" ∈ (model_dump_exclude_none p).map Prod.fst) ∧
    (p.openProduct ≠ none → "openProduct" ∈ (model_dump_exclude_none p).map Prod.fst) ∧
    (p.tvChannels ≠ none → "tvChannels" ∈ (model_dump_exclude_none p).map Prod.fst) := by
  refine ⟨generate_validated_params_used b p,
    ?_, ?_, ?_, ?_, ?_, ?_, ?_, ?_, ?_, ?_, ?_, ?_, ?_, ?_⟩ <;>
    first
      | (intro h; simp [model_dump_exclude_none, exists_mem_dumpOpt, h])
      | simp [model_dump_exclude_none, exists_mem_dumpOpt]

/-- Claim C9 amended witness: for a postcode-only parameter set the unset
`speedInMb` is absent while the unsupplied UI-only `tab` is present. -/
theorem claim_C9_parameters_used_amended_witness :
    "speedInMb" ∉
      (model_dump_exclude_none { postcode := "E14 9WB" }).map Prod.fst ∧
    "tab" ∈ (model_dump_exclude_none { postcode := "E14 9WB" }).map Prod.fst := by
  have h := claim_C9_parameters_used_amended
    "https://broadband.justmovein.co/packages" { postcode := "E14 9WB" }
  exact ⟨h.2.1 rfl, h.2.2.2.2.2.2.2.2.2.2.2.1⟩

/-- Claim C10: for every valid parameter set the fragment query is never
empty — the `matryoshkaSpeed`, `productType`, `sortBy` and `tab` entries
always survive the empty-value drop — so with a base URL already in
`HttpUrl` normal form every successful URL ends in `#/?` followed by the
fragment entries and the bare `#/` ending is unreachable. -/
theorem claim_C10_fragment_nonempty (b : String) (p : BroadbandParams)
    (hb : CanonicalHttpBase b)
    (hs : (URLGenerator.generate b (.validated p)).success = true) :
    fragmentParams p ≠ [] ∧
    (URLGenerator.generate b (.validated p)).url =
      some (b ++ "?location=" ++ pyQuote p.postcode_for_url ++ "#/?" ++ fragment_string p) ∧
    "matryoshkaSpeed" ∈ (fragmentParams p).map Prod.fst ∧
    "productType" ∈ (fragmentParams p).map Prod.fst ∧
    "sortBy" ∈ (fragmentParams p).map Prod.fst ∧
    "tab" ∈ (fragmentParams p).map Prod.fst := by
  have he : URLGenerator.generate b (.validated p) = generate_validated b p := rfl
  refine ⟨fragmentParams_ne_nil p, ?_, ?_, ?_, ?_, ?_⟩
  · rw [he]
    exact generated_url_eq b p hb hs
  · exact List.mem_map_of_mem _ (matryoshka_mem p)
  · exact List.mem_map_of_mem _ (productType_mem p)
  · exact List.mem_map_of_mem _ (sortBy_mem p)
  · exact List.mem_map_of_mem _ (tab_mem p)

/-- Claim C10 witness: the postcode-only parameter set has a non-empty
fragment containing the four always-present keys. -/
theorem claim_C10_fragment_nonempty_witness :
    fragmentParams ({ postcode := "E14 9WB" } : BroadbandParams) ≠ [] ∧
    "tab" ∈ (fragmentParams ({ postcode := "E14 9WB" } : BroadbandParams)).map Prod.fst := by
  have h := claim_C10_fragment_nonempty "https://broadband.justmovein.co/packages"
    { postcode := "E14 9WB" }
    ⟨"https://", "broadband.justmovein.co", "packages", Or.inr rfl, by decide,
      by decide, by decide, by decide⟩ (by decide)
  exact ⟨h.1, h.2.2.2.2.2⟩
